import Mathlib

/-!
Verification of the felitarg chat server (src/felit_server.js) against its
natural-language specification.

The server is a set of Express request handlers over a SQLite database with
two tables, users and messages.  We embed the tables as Lean lists kept in
insertion (rowid) order, SQL ORDER BY as a stable insertion sort on the
scanned rows, SQL JOIN as a nested product restricted by the ON condition,
and each request handler as a pure function from the incoming session, the
request body and the database state to the HTTP response and the resulting
database state.  I/O failures of the SQLite driver (which surface as a
rejected promise caught by the handler) are modelled by explicit boolean
failure flags, one per database operation a handler performs, in the order
the handler performs them.  bcrypt.compare is an external library call and
is passed to the login handler as an opaque boolean function.
-/

namespace Felit

/-- Row of the users table (id INTEGER PRIMARY KEY AUTOINCREMENT, username
TEXT UNIQUE, password_hash TEXT, is_admin INTEGER DEFAULT 0). The is_admin
column is an SQL INTEGER, kept as a Nat. -/
structure User where
  id : Nat
  username : String
  password_hash : String
  is_admin : Nat
deriving DecidableEq

/-- Row of the messages table (id INTEGER PRIMARY KEY AUTOINCREMENT,
sender_id INTEGER, text TEXT, ts DATETIME DEFAULT CURRENT_TIMESTAMP).
Timestamps are server-assigned and totally ordered; we model them as Nat.
CURRENT_TIMESTAMP has one-second granularity, so distinct rows may carry
equal timestamps. -/
structure Message where
  id : Nat
  sender_id : Nat
  text : String
  ts : Nat
deriving DecidableEq

/-- The database: both tables in insertion (rowid) order, plus the next
AUTOINCREMENT id for messages. -/
structure DB where
  users : List User
  messages : List Message
  nextMsgId : Nat
deriving DecidableEq

/-- The value stored in req.session.user by a successful login:
{ id: user.id, username: user.username, is_admin: !!user.is_admin }. -/
structure SessionUser where
  id : Nat
  username : String
  is_admin : Bool
deriving DecidableEq

/-- A row of the GET /messages result set:
SELECT m.id, m.text, m.ts, u.username, u.is_admin. The is_admin value is
the raw INTEGER column. -/
structure MsgRow where
  id : Nat
  text : String
  ts : Nat
  username : String
  is_admin : Nat
deriving DecidableEq

/-- A row of the users part of the GET /admin result:
SELECT id, username, is_admin FROM users. -/
structure AdminUserRow where
  id : Nat
  username : String
  is_admin : Nat
deriving DecidableEq

/-- A row of the messages part of the GET /admin result:
SELECT m.id, m.text, m.ts, u.username as sender, u.is_admin. -/
structure AdminMsgRow where
  id : Nat
  text : String
  ts : Nat
  sender : String
  is_admin : Nat
deriving DecidableEq

/-- An HTTP response as produced by the handlers: res.redirect(loc),
res.status(c).send(body), res.sendStatus(c), res.status(c).json(rows) or
res.json(rows) for /messages (res.json alone sends 200), and
res.json({users, messages}) for /admin. -/
inductive Response where
  | redirect (location : String)
  | status (code : Nat) (body : String)
  | sendStatus (code : Nat)
  | jsonMessages (code : Nat) (rows : List MsgRow)
  | jsonAdmin (users : List AdminUserRow) (messages : List AdminMsgRow)
deriving DecidableEq

/-- The HTTP status code actually sent: res.redirect defaults to 302,
res.json defaults to 200. -/
def Response.statusCode : Response → Nat
  | .redirect _ => 302
  | .status c _ => c
  | .sendStatus c => c
  | .jsonMessages c _ => c
  | .jsonAdmin _ _ => 200

/-- JavaScript truthiness of an SQL INTEGER value: !!n. -/
def jsTruthyNat (n : Nat) : Bool := n != 0

/-- JavaScript falsiness of the body field text in the /send handler
(!text): the field is absent (undefined) or the empty string. A
whitespace-only string is truthy. -/
def jsFalsyText : Option String → Bool
  | none => true
  | some s => s == ""

/-- The response of the requireLogin middleware when req.session.user is
unset: res.redirect to /login.html. -/
def requireLoginRedirect : Response := .redirect "/login.html"

/-- POST /login (felit_server.js lines 105-120). Looks the user up with
db.get SELECT * FROM users WHERE username=?, answers 401 with the same
body whether the username is unknown or bcrypt.compare fails, stores
{id, username, is_admin: !!user.is_admin} in the session on success and
redirects to /, and answers 500 from the catch block when the database
read fails. -/
def loginHandler (sessionIn : Option SessionUser) (username password : String)
    (bcryptCompare : String → String → Bool) (db : DB) (dbFail : Bool) :
    Response × Option SessionUser :=
  if dbFail then (.status 500 "Server error", sessionIn)
  else
    match db.users.find? (fun u => u.username == username) with
    | none => (.status 401 "Invalid username/password", sessionIn)
    | some user =>
      if bcryptCompare password user.password_hash then
        (.redirect "/", some ⟨user.id, user.username, jsTruthyNat user.is_admin⟩)
      else
        (.status 401 "Invalid username/password", sessionIn)

/-- POST /logout (felit_server.js lines 122-124): req.session.destroy then
redirect to /login.html. -/
def logoutHandler (_sessionIn : Option SessionUser) : Response × Option SessionUser :=
  (.redirect "/login.html", none)

/-- POST /send (felit_server.js lines 127-141), requireLogin included.
Rejects a falsy body text with 400 Bad Request before touching the
database, otherwise inserts (sender_id, text) with the server-assigned
timestamp and the next AUTOINCREMENT id, answering 200 on success and 500
from the catch block when the insert fails. -/
def sendHandler (session : Option SessionUser) (text : Option String) (db : DB)
    (dbFail : Bool) (now : Nat) : Response × DB :=
  match session with
  | none => (requireLoginRedirect, db)
  | some s =>
    if jsFalsyText text then (.status 400 "Bad Request", db)
    else if dbFail then (.status 500 "Database error", db)
    else (.sendStatus 200,
      { db with
        messages := db.messages ++ [⟨db.nextMsgId, s.id, text.getD "", now⟩],
        nextMsgId := db.nextMsgId + 1 })

/-- The ORDER BY key of GET /messages: ascending timestamp. -/
def rowLe (a b : MsgRow) : Prop := a.ts ≤ b.ts

instance : DecidableRel rowLe := fun a b => Nat.decLe a.ts b.ts

instance : IsTotal MsgRow rowLe := ⟨fun a b => Nat.le_total a.ts b.ts⟩

instance : IsTrans MsgRow rowLe := ⟨fun _ _ _ hab hbc => Nat.le_trans hab hbc⟩

/-- One result row of the /messages JOIN for a given message and matching
user. -/
def msgRowOf (m : Message) (u : User) : MsgRow :=
  ⟨m.id, m.text, m.ts, u.username, u.is_admin⟩

/-- FROM messages m JOIN users u ON m.sender_id = u.id, scanned in rowid
order: each message row paired with every users row satisfying the ON
condition. A message whose sender_id matches no user produces no row. -/
def joinRows (db : DB) : List MsgRow :=
  db.messages.flatMap fun m =>
    (db.users.filter fun u => u.id == m.sender_id).map fun u => msgRowOf m u

/-- The full /messages query: the JOIN followed by ORDER BY m.ts ASC,
modelled as a stable sort of the scanned rows. -/
def messagesQuery (db : DB) : List MsgRow :=
  List.insertionSort rowLe (joinRows db)

/-- GET /messages (felit_server.js lines 144-160), requireLogin included.
Runs the join query and answers res.json(rows); on a database failure the
catch block answers res.status(500).json([]). -/
def messagesHandler (session : Option SessionUser) (db : DB) (dbFail : Bool) :
    Response × DB :=
  match session with
  | none => (requireLoginRedirect, db)
  | some _ =>
    if dbFail then (.jsonMessages 500 [], db)
    else (.jsonMessages 200 (messagesQuery db), db)

/-- The ORDER BY key of the /admin users query: ascending username
(SQLite BINARY collation on UTF-8 bytes, which agrees with code-point
lexicographic order on strings). -/
def userRowLe (a b : AdminUserRow) : Prop := a.username ≤ b.username

instance : DecidableRel userRowLe := fun a b =>
  inferInstanceAs (Decidable (a.username ≤ b.username))

instance : IsTotal AdminUserRow userRowLe := ⟨fun a b => le_total a.username b.username⟩

instance : IsTrans AdminUserRow userRowLe := ⟨fun _ _ _ hab hbc => le_trans hab hbc⟩

/-- The ORDER BY key of the /admin messages query: descending timestamp. -/
def rowGe (a b : AdminMsgRow) : Prop := b.ts ≤ a.ts

instance : DecidableRel rowGe := fun a b => Nat.decLe b.ts a.ts

instance : IsTotal AdminMsgRow rowGe := ⟨fun a b => Nat.le_total b.ts a.ts⟩

instance : IsTrans AdminMsgRow rowGe := ⟨fun _ _ _ hab hbc => Nat.le_trans hbc hab⟩

/-- Projection of a users row for the /admin users query. -/
def adminUserRowOf (u : User) : AdminUserRow := ⟨u.id, u.username, u.is_admin⟩

/-- SELECT id, username, is_admin FROM users ORDER BY username ASC. -/
def adminUsersQuery (db : DB) : List AdminUserRow :=
  List.insertionSort userRowLe (db.users.map adminUserRowOf)

/-- One result row of the /admin messages JOIN. -/
def adminMsgRowOf (m : Message) (u : User) : AdminMsgRow :=
  ⟨m.id, m.text, m.ts, u.username, u.is_admin⟩

/-- The /admin messages JOIN, same shape as the /messages one. -/
def adminJoinRows (db : DB) : List AdminMsgRow :=
  db.messages.flatMap fun m =>
    (db.users.filter fun u => u.id == m.sender_id).map fun u => adminMsgRowOf m u

/-- The /admin messages query: the JOIN followed by ORDER BY m.ts DESC. -/
def adminMessagesQuery (db : DB) : List AdminMsgRow :=
  List.insertionSort rowGe (adminJoinRows db)

/-- GET /admin (felit_server.js lines 163-177), requireLogin included.
Answers 403 Forbidden before opening the database when the session is not
an admin one; otherwise runs the users query then the messages query and
answers res.json({users, messages}); a failure of either query is caught
and answered with 500. -/
def adminHandler (session : Option SessionUser) (db : DB)
    (usersFail msgsFail : Bool) : Response × DB :=
  match session with
  | none => (requireLoginRedirect, db)
  | some s =>
    if !s.is_admin then (.status 403 "Forbidden", db)
    else if usersFail then (.status 500 "Server error", db)
    else if msgsFail then (.status 500 "Server error", db)
    else (.jsonAdmin (adminUsersQuery db) (adminMessagesQuery db), db)

/-- The users table has pairwise distinct ids (id is the INTEGER PRIMARY
KEY). -/
def UsersIdUnique (db : DB) : Prop :=
  db.users.Pairwise (fun a b => a.id ≠ b.id)

/-- Every message's sender_id resolves to some user (the data-model
invariant: every message has exactly one existing sender). -/
def SendersResolve (db : DB) : Prop :=
  ∀ m ∈ db.messages, ∃ u ∈ db.users, u.id = m.sender_id

/-- The user the /messages JOIN resolves a sender_id to: the first users
row matching it (unique when ids are). -/
def annotUser (users : List User) (sid : Nat) : User :=
  (users.find? fun u => u.id == sid).getD ⟨0, "", "", 0⟩

/-- A message annotated with its resolved sender, as the /messages JOIN
produces it. -/
def annot (db : DB) (m : Message) : MsgRow :=
  msgRowOf m (annotUser db.users m.sender_id)

/-- A message annotated with its resolved sender, in the /admin row
shape. -/
def adminAnnot (db : DB) (m : Message) : AdminMsgRow :=
  adminMsgRowOf m (annotUser db.users m.sender_id)

/-- Example users for concrete evaluations: one ordinary user, one
admin. -/
def aliceUser : User := ⟨1, "alice", "hashA", 0⟩

def rootUser : User := ⟨2, "root", "hashR", 1⟩

/-- An example database with two users and two messages sharing a
timestamp. -/
def dbEx : DB :=
  ⟨[aliceUser, rootUser], [⟨1, 1, "hi", 10⟩, ⟨2, 2, "yo", 10⟩], 3⟩

/-- With pairwise distinct user ids, the rows matching a resolvable
sender_id are exactly the one matching user, and find? returns it. -/
theorem filter_find_of_uniq {u : User} {sid : Nat} :
    ∀ {users : List User}, users.Pairwise (fun a b => a.id ≠ b.id) →
      u ∈ users → u.id = sid →
      users.filter (fun v => v.id == sid) = [u] ∧
      users.find? (fun v => v.id == sid) = some u := by
  intro users
  induction users with
  | nil => intro _ hu; cases hu
  | cons v vs ih =>
    intro huniq hu hid
    obtain ⟨hv, hvs⟩ := List.pairwise_cons.mp huniq
    rcases List.mem_cons.mp hu with rfl | hu
    · have hcond : (fun w : User => w.id == sid) u = true := by simp [hid]
      have hnil : vs.filter (fun w => w.id == sid) = [] := by
        rw [List.filter_eq_nil_iff]
        intro w hw
        have := hv w hw
        simp only [beq_iff_eq]
        omega
      refine ⟨?_, List.find?_cons_of_pos _ hcond⟩
      rw [@List.filter_cons_of_pos _ (fun w => w.id == sid) u vs hcond, hnil]
    · have hvne : ¬ (fun w : User => w.id == sid) v = true := by
        have := hv u hu
        simp only [beq_iff_eq]
        omega
      obtain ⟨h1, h2⟩ := ih hvs hu hid
      refine ⟨?_, ?_⟩
      · rw [@List.filter_cons_of_neg _ (fun w => w.id == sid) v vs hvne, h1]
      · rw [@List.find?_cons_of_neg _ (fun w => w.id == sid) v vs hvne, h2]

/-- Under the primary-key invariant, the JOIN resolves a present sender_id
to its unique user. -/
theorem annotUser_eq {users : List User} {u : User} {sid : Nat}
    (huniq : users.Pairwise (fun a b => a.id ≠ b.id))
    (hu : u ∈ users) (hid : u.id = sid) :
    annotUser users sid = u := by
  rw [annotUser, (filter_find_of_uniq huniq hu hid).2, Option.getD_some]

/-- Under the invariants, the JOIN yields exactly one row per message, in
message order. -/
theorem flatMap_join_eq_map {β : Type} (rowOf : Message → User → β)
    {users : List User} (huniq : users.Pairwise (fun a b => a.id ≠ b.id)) :
    ∀ ms : List Message, (∀ m ∈ ms, ∃ u ∈ users, u.id = m.sender_id) →
      (ms.flatMap fun m =>
          (users.filter fun u => u.id == m.sender_id).map fun u => rowOf m u)
        = ms.map fun m => rowOf m (annotUser users m.sender_id) := by
  intro ms
  induction ms with
  | nil => intro _; rfl
  | cons m ms ih =>
    intro h
    obtain ⟨u, hu, hid⟩ := h m (List.mem_cons_self m ms)
    rw [List.flatMap_cons, (filter_find_of_uniq huniq hu hid).1, List.map_cons,
      ih (fun m2 hm2 => h m2 (List.mem_cons_of_mem _ hm2)), List.map_cons,
      annotUser_eq huniq hu hid]
    rfl

/-- The /messages JOIN as a per-message annotation, under the
invariants. -/
theorem joinRows_eq_map {db : DB} (huniq : UsersIdUnique db)
    (hres : SendersResolve db) :
    joinRows db = db.messages.map (annot db) :=
  flatMap_join_eq_map msgRowOf huniq db.messages hres

/-- The /admin messages JOIN as a per-message annotation, under the
invariants. -/
theorem adminJoinRows_eq_map {db : DB} (huniq : UsersIdUnique db)
    (hres : SendersResolve db) :
    adminJoinRows db = db.messages.map (adminAnnot db) :=
  flatMap_join_eq_map adminMsgRowOf huniq db.messages hres

/-- Inserting a row preserves the sublist of rows carrying any fixed
timestamp: rows skipped by orderedInsert carry a strictly smaller
timestamp than the inserted one. -/
theorem filter_ts_orderedInsert (t : Nat) (x : MsgRow) :
    ∀ l : List MsgRow,
      (List.orderedInsert rowLe x l).filter (fun a => a.ts == t)
        = (x :: l).filter (fun a => a.ts == t) := by
  intro l
  induction l with
  | nil => rfl
  | cons y l ih =>
    rw [List.orderedInsert]
    split_ifs with h
    · rfl
    · have hlt : y.ts < x.ts := Nat.lt_of_not_le h
      by_cases hy : y.ts = t
      · have hx : ¬ x.ts = t := by omega
        simp only [List.filter_cons, beq_iff_eq, hy, if_true, hx, if_false] at ih ⊢
        rw [ih]
      · simp only [List.filter_cons, beq_iff_eq, hy, if_false] at ih ⊢
        exact ih

/-- Stability of the ORDER BY model: sorting preserves the relative order
of rows with equal timestamps. -/
theorem filter_ts_insertionSort (t : Nat) :
    ∀ l : List MsgRow,
      (List.insertionSort rowLe l).filter (fun a => a.ts == t)
        = l.filter (fun a => a.ts == t) := by
  intro l
  induction l with
  | nil => rfl
  | cons x l ih =>
    rw [List.insertionSort, filter_ts_orderedInsert]
    simp only [List.filter_cons, ih]

/-- C1 counterexample: the body " " is non-empty whitespace, so it is
truthy in JavaScript and passes the !text check of POST /send: with a
valid session the server inserts a new message row and answers 200, not a
bad-request status, refuting the claim for whitespace-only bodies. -/
theorem C1_counterexample :
    ((" ").data ≠ [] ∧ ∀ c ∈ (" ").data, c.isWhitespace) ∧
    (sendHandler (some ⟨1, "alice", false⟩) (some " ") dbEx false 11).1.statusCode = 200 ∧
    (sendHandler (some ⟨1, "alice", false⟩) (some " ") dbEx false 11).2.messages.length
      = dbEx.messages.length + 1 ∧
    ¬ ((sendHandler (some ⟨1, "alice", false⟩) (some " ") dbEx false 11).1.statusCode = 400 ∧
       (sendHandler (some ⟨1, "alice", false⟩) (some " ") dbEx false 11).2.messages
         = dbEx.messages) := by
  decide

/-- C1 (amended): a POST /send request with a valid session whose body
text is absent or the empty string is answered 400 Bad Request and leaves
the messages table unchanged; whitespace-only non-empty bodies are
accepted. -/
theorem C1_empty_body_rejected (s : SessionUser) (text : Option String)
    (db : DB) (dbFail : Bool) (now : Nat)
    (h : text = none ∨ text = some "") :
    sendHandler (some s) text db dbFail now = (.status 400 "Bad Request", db) := by
  rcases h with rfl | rfl <;> rfl

/-- C1 witness: the empty-body rejection at a concrete request. -/
theorem C1_witness :
    sendHandler (some ⟨1, "alice", false⟩) (some "") dbEx false 11
      = (.status 400 "Bad Request", dbEx) :=
  C1_empty_body_rejected ⟨1, "alice", false⟩ (some "") dbEx false 11 (Or.inr rfl)

/-- C3: a POST /login request with invalid credentials — unknown username
or a password rejected by bcrypt.compare — is answered 401 with the body
Invalid username/password, literally the same response value in both
cases, and the session user is left exactly as it was (none stays
none). -/
theorem C3_login_invalid (db : DB) (username password : String)
    (cmp : String → String → Bool) (s0 : Option SessionUser) :
    (db.users.find? (fun u => u.username == username) = none →
      loginHandler s0 username password cmp db false
        = (.status 401 "Invalid username/password", s0)) ∧
    (∀ u : User, db.users.find? (fun v => v.username == username) = some u →
      cmp password u.password_hash = false →
      loginHandler s0 username password cmp db false
        = (.status 401 "Invalid username/password", s0)) := by
  constructor
  · intro hfind
    simp [loginHandler, hfind]
  · intro u hfind hcmp
    simp [loginHandler, hfind, hcmp]

/-- C3 witness: an unknown username and a rejected password at concrete
requests against the example database. -/
theorem C3_witness :
    loginHandler none "carol" "pw" (fun _ _ => false) dbEx false
      = (.status 401 "Invalid username/password", none) ∧
    loginHandler none "alice" "wrong" (fun _ _ => false) dbEx false
      = (.status 401 "Invalid username/password", none) :=
  ⟨(C3_login_invalid dbEx "carol" "pw" (fun _ _ => false) none).1 (by decide),
   (C3_login_invalid dbEx "alice" "wrong" (fun _ _ => false) none).2
     aliceUser (by decide) rfl⟩

/-- C4: a POST /login request whose username resolves to a stored user and
whose password the hash comparison accepts is answered with a redirect to
/ and establishes a session holding that user's id and username and the
truthiness of the stored is_admin flag. -/
theorem C4_login_valid (db : DB) (username password : String)
    (cmp : String → String → Bool) (s0 : Option SessionUser) (u : User)
    (hfind : db.users.find? (fun v => v.username == username) = some u)
    (hcmp : cmp password u.password_hash = true) :
    loginHandler s0 username password cmp db false
      = (.redirect "/", some ⟨u.id, u.username, jsTruthyNat u.is_admin⟩) := by
  simp [loginHandler, hfind, hcmp]

/-- C4 witness: a successful login of the admin user at a concrete
request. -/
theorem C4_witness :
    loginHandler none "root" "pw" (fun _ _ => true) dbEx false
      = (.redirect "/", some ⟨2, "root", true⟩) :=
  C4_login_valid dbEx "root" "pw" (fun _ _ => true) none rootUser (by decide) rfl

/-- C6 counterexample: after a logout the session is gone and GET
/messages answers a 302 redirect to /login.html, not an unauthorized 401
status. -/
theorem C6_counterexample :
    (logoutHandler (some ⟨1, "alice", false⟩)).2 = none ∧
    (messagesHandler (logoutHandler (some ⟨1, "alice", false⟩)).2 dbEx false).1
      = Response.redirect "/login.html" ∧
    (messagesHandler (logoutHandler (some ⟨1, "alice", false⟩)).2 dbEx false).1.statusCode
      = 302 ∧
    ¬ (messagesHandler (logoutHandler (some ⟨1, "alice", false⟩)).2 dbEx
        false).1.statusCode = 401 := by
  decide

/-- C6 (amended): a GET /messages request made with the session left by a
logout is rejected by the login gate with a redirect to the login page
(HTTP 302) — it is never served the message list — rather than with an
unauthorized status. -/
theorem C6_logout_then_messages_redirect (s0 : Option SessionUser) (db : DB)
    (dbFail : Bool) :
    messagesHandler (logoutHandler s0).2 db dbFail
      = (Response.redirect "/login.html", db) := rfl

/-- C7: whenever a storage operation fails, the handler that issued it
answers status 500 (a generic server error) from its catch block, and the
operation is not retried: the database state the handler hands back is
exactly the one it received, and no second attempt occurs. Covers the
login read, the send insert, the messages read, and both admin reads. -/
theorem C7_storage_failure_500 :
    (∀ (s0 : Option SessionUser) (username password : String)
        (cmp : String → String → Bool) (db : DB),
      loginHandler s0 username password cmp db true
        = (.status 500 "Server error", s0)) ∧
    (∀ (s : SessionUser) (text : Option String) (db : DB) (now : Nat),
      jsFalsyText text = false →
      (sendHandler (some s) text db true now).1 = .status 500 "Database error" ∧
      (sendHandler (some s) text db true now).2 = db) ∧
    (∀ (s : SessionUser) (db : DB),
      messagesHandler (some s) db true = (.jsonMessages 500 [], db)) ∧
    (∀ (s : SessionUser) (db : DB) (mf : Bool), s.is_admin = true →
      adminHandler (some s) db true mf = (.status 500 "Server error", db)) ∧
    (∀ (s : SessionUser) (db : DB), s.is_admin = true →
      adminHandler (some s) db false true = (.status 500 "Server error", db)) := by
  refine ⟨fun s0 username password cmp db => rfl,
    fun s text db now h => ?_,
    fun s db => rfl,
    fun s db mf h => ?_,
    fun s db h => ?_⟩
  · rw [sendHandler]
    simp [h]
  · simp [adminHandler, h]
  · simp [adminHandler, h]

/-- C7 witness: each handler at a concrete failing request. -/
theorem C7_witness :
    loginHandler none "alice" "pw" (fun _ _ => true) dbEx true
      = (.status 500 "Server error", none) ∧
    ((sendHandler (some ⟨1, "alice", false⟩) (some "hi") dbEx true 11).1
        = .status 500 "Database error" ∧
     (sendHandler (some ⟨1, "alice", false⟩) (some "hi") dbEx true 11).2 = dbEx) ∧
    messagesHandler (some ⟨1, "alice", false⟩) dbEx true
      = (.jsonMessages 500 [], dbEx) ∧
    adminHandler (some ⟨2, "root", true⟩) dbEx true false
      = (.status 500 "Server error", dbEx) ∧
    adminHandler (some ⟨2, "root", true⟩) dbEx false true
      = (.status 500 "Server error", dbEx) :=
  ⟨C7_storage_failure_500.1 none "alice" "pw" (fun _ _ => true) dbEx,
   C7_storage_failure_500.2.1 ⟨1, "alice", false⟩ (some "hi") dbEx 11 rfl,
   C7_storage_failure_500.2.2.1 ⟨1, "alice", false⟩ dbEx,
   C7_storage_failure_500.2.2.2.1 ⟨2, "root", true⟩ dbEx false rfl,
   C7_storage_failure_500.2.2.2.2 ⟨2, "root", true⟩ dbEx rfl⟩

/-- C9: GET /messages and GET /admin only read: whatever the session and
whether the reads succeed or fail, the database state after the request is
the one before it. -/
theorem C9_get_handlers_read_only (session : Option SessionUser) (db : DB)
    (dbFail uf mf : Bool) :
    (messagesHandler session db dbFail).2 = db ∧
    (adminHandler session db uf mf).2 = db := by
  constructor
  · rcases session with _ | s
    · rfl
    · cases dbFail <;> rfl
  · rcases session with _ | ⟨i, n, adm⟩
    · rfl
    · cases adm <;> cases uf <;> cases mf <;> rfl

/-- C10: the users array of a successful GET /admin response is sorted
ascending by username (SELECT ... ORDER BY username ASC). -/
theorem C10_admin_users_sorted (db : DB) (s : SessionUser)
    (h : s.is_admin = true) :
    ∃ us ms, adminHandler (some s) db false false = (.jsonAdmin us ms, db) ∧
      us.Pairwise (fun a b : AdminUserRow => a.username ≤ b.username) := by
  refine ⟨adminUsersQuery db, adminMessagesQuery db, by simp [adminHandler, h], ?_⟩
  exact List.sorted_insertionSort userRowLe _

/-- C10 witness: the admin view of the example database. -/
theorem C10_witness :
    ∃ us ms, adminHandler (some ⟨2, "root", true⟩) dbEx false false
        = (.jsonAdmin us ms, dbEx) ∧
      us.Pairwise (fun a b : AdminUserRow => a.username ≤ b.username) :=
  C10_admin_users_sorted dbEx ⟨2, "root", true⟩ rfl

/-- C2: under the data-model invariants (primary-key-unique user ids and
every sender resolvable), a GET /messages request with a valid session and
no storage failure answers 200 with rows that are a permutation of all
stored messages each annotated with its sender's username and admin flag,
sorted ascending by timestamp, and with equal-timestamp rows kept in the
stored insertion order. -/
theorem C2_messages_sorted_complete (db : DB) (s : SessionUser)
    (huniq : UsersIdUnique db) (hres : SendersResolve db) :
    ∃ rows : List MsgRow,
      messagesHandler (some s) db false = (.jsonMessages 200 rows, db) ∧
      rows.Perm (db.messages.map (annot db)) ∧
      rows.Pairwise (fun a b : MsgRow => a.ts ≤ b.ts) ∧
      (∀ t : Nat, rows.filter (fun r => r.ts == t)
          = (db.messages.map (annot db)).filter (fun r => r.ts == t)) ∧
      (∀ m ∈ db.messages, ∃ u ∈ db.users, u.id = m.sender_id ∧
        annot db m = msgRowOf m u) := by
  refine ⟨messagesQuery db, rfl, ?_, ?_, ?_, ?_⟩
  · unfold messagesQuery
    rw [joinRows_eq_map huniq hres]
    exact List.perm_insertionSort rowLe _
  · exact List.sorted_insertionSort rowLe (joinRows db)
  · intro t
    unfold messagesQuery
    rw [filter_ts_insertionSort t (joinRows db), joinRows_eq_map huniq hres]
  · intro m hm
    obtain ⟨u, hu, hid⟩ := hres m hm
    refine ⟨u, hu, hid, ?_⟩
    unfold annot
    rw [annotUser_eq huniq hu hid]

/-- C2 witness: the message list of the example database, whose two
messages share a timestamp. -/
theorem C2_witness :
    ∃ rows : List MsgRow,
      messagesHandler (some ⟨1, "alice", false⟩) dbEx false
        = (.jsonMessages 200 rows, dbEx) ∧
      rows.Perm (dbEx.messages.map (annot dbEx)) ∧
      rows.Pairwise (fun a b : MsgRow => a.ts ≤ b.ts) ∧
      (∀ t : Nat, rows.filter (fun r => r.ts == t)
          = (dbEx.messages.map (annot dbEx)).filter (fun r => r.ts == t)) ∧
      (∀ m ∈ dbEx.messages, ∃ u ∈ dbEx.users, u.id = m.sender_id ∧
        annot dbEx m = msgRowOf m u) :=
  C2_messages_sorted_complete dbEx ⟨1, "alice", false⟩
    (by unfold UsersIdUnique; decide) (by unfold SendersResolve; decide)

/-- C5: a GET /admin request by a non-admin session is answered 403
Forbidden with the database untouched and no read even attempted (the
response does not depend on the failure flags); by an admin session, under
the data-model invariants and with no storage failure, it is answered with
the full users list and the full messages list, the messages sorted
descending by timestamp. -/
theorem C5_admin_view (db : DB) (s : SessionUser) :
    (s.is_admin = false →
      ∀ uf mf : Bool, adminHandler (some s) db uf mf
        = (.status 403 "Forbidden", db)) ∧
    (s.is_admin = true → UsersIdUnique db → SendersResolve db →
      ∃ us ms, adminHandler (some s) db false false = (.jsonAdmin us ms, db) ∧
        us.Perm (db.users.map adminUserRowOf) ∧
        ms.Perm (db.messages.map (adminAnnot db)) ∧
        ms.Pairwise (fun a b : AdminMsgRow => b.ts ≤ a.ts) ∧
        (∀ m ∈ db.messages, ∃ u ∈ db.users, u.id = m.sender_id ∧
          adminAnnot db m = adminMsgRowOf m u)) := by
  constructor
  · intro h uf mf
    simp [adminHandler, h]
  · intro h huniq hres
    refine ⟨adminUsersQuery db, adminMessagesQuery db,
      by simp [adminHandler, h], ?_, ?_, ?_, ?_⟩
    · exact List.perm_insertionSort userRowLe _
    · unfold adminMessagesQuery
      rw [adminJoinRows_eq_map huniq hres]
      exact List.perm_insertionSort rowGe _
    · exact List.sorted_insertionSort rowGe (adminJoinRows db)
    · intro m hm
      obtain ⟨u, hu, hid⟩ := hres m hm
      refine ⟨u, hu, hid, ?_⟩
      unfold adminAnnot
      rw [annotUser_eq huniq hu hid]

/-- C5 witness: the forbidden branch for the ordinary user and the full
snapshot for the admin, on the example database. -/
theorem C5_witness :
    adminHandler (some ⟨1, "alice", false⟩) dbEx true true
      = (.status 403 "Forbidden", dbEx) ∧
    (∃ us ms, adminHandler (some ⟨2, "root", true⟩) dbEx false false
        = (.jsonAdmin us ms, dbEx) ∧
      us.Perm (dbEx.users.map adminUserRowOf) ∧
      ms.Perm (dbEx.messages.map (adminAnnot dbEx)) ∧
      ms.Pairwise (fun a b : AdminMsgRow => b.ts ≤ a.ts) ∧
      (∀ m ∈ dbEx.messages, ∃ u ∈ dbEx.users, u.id = m.sender_id ∧
        adminAnnot dbEx m = adminMsgRowOf m u)) :=
  ⟨(C5_admin_view dbEx ⟨1, "alice", false⟩).1 rfl true true,
   (C5_admin_view dbEx ⟨2, "root", true⟩).2 rfl
     (by unfold UsersIdUnique; decide) (by unfold SendersResolve; decide)⟩

/-- C8: the rows a successful GET /messages returns are exactly the
messages whose sender_id matches a stored user, annotated with that user:
a row exists for a message precisely when its sender resolves (the inner
join silently omits orphan rows), so every returned entry carries the
username and admin flag of an existing user. -/
theorem C8_messages_join_resolves (db : DB) (s : SessionUser) :
    ∃ rows : List MsgRow,
      messagesHandler (some s) db false = (.jsonMessages 200 rows, db) ∧
      (∀ r : MsgRow, r ∈ rows ↔ ∃ m ∈ db.messages, ∃ u ∈ db.users,
          u.id = m.sender_id ∧ r = msgRowOf m u) ∧
      (∀ r ∈ rows, ∃ u ∈ db.users, r.username = u.username ∧
        r.is_admin = u.is_admin) := by
  have hmem : ∀ r : MsgRow, r ∈ messagesQuery db ↔ ∃ m ∈ db.messages,
      ∃ u ∈ db.users, u.id = m.sender_id ∧ r = msgRowOf m u := by
    intro r
    unfold messagesQuery joinRows
    rw [(List.perm_insertionSort rowLe _).mem_iff]
    simp only [List.mem_flatMap, List.mem_map, List.mem_filter, beq_iff_eq]
    constructor
    · rintro ⟨m, hm, u, ⟨hu, hid⟩, rfl⟩
      exact ⟨m, hm, u, hu, hid, rfl⟩
    · rintro ⟨m, hm, u, hu, hid, rfl⟩
      exact ⟨m, hm, u, ⟨hu, hid⟩, rfl⟩
  refine ⟨messagesQuery db, rfl, hmem, ?_⟩
  intro r hr
  obtain ⟨m, _, u, hu, _, rfl⟩ := (hmem r).mp hr
  exact ⟨u, hu, rfl, rfl⟩

end Felit
